import Mathlib

/-!
Verification of the client-side state core of the `frontend-os` CPU-scheduling
dashboard: the simulation state reconciler (zustand store in
`src/lib/store/simulation-state`, read from `src/unnamed/part_002`, first
version, lines 1-178), the completed-run registry (`useAlgorithmResultsStore`
in `src/lib/api.ts`, lines 176-249), and the comparison analytics
(`insights` in `src/components/visualization/AlgorithmComparisonChart.tsx`,
second version, lines 382-855).

Modelling conventions for the shallow embedding of the TypeScript source:
* JS objects become Lean structures; optional / possibly-absent fields become
  `Option`; a JS value that may be "a well-formed array or something else"
  becomes the inductive `ArrVal`, recording for a non-array only its JS
  truthiness (that is all the source ever inspects before calling `.map`).
* Numeric process/statistic payloads are embedded with exact arithmetic
  (`Int` / `Rat`); IEEE-754 rounding is not modelled.  Statistic values that
  arrive as JS `string | number` become `StatVal`; `StatVal.jsToString`
  embeds `v.toString()` for strings and for integer-valued numbers (a JS
  number with integral value prints with no decimal point, like `Int.repr`).
* `Math.random().toString(36).substring(2, 9)` id suffixes are embedded as an
  explicit stream `gen : Nat → String` consumed left to right, one draw per
  synthesised id, exactly where the source draws a random suffix.
* A JS `TypeError` escaping the zustand `set` callback is embedded as
  `Except.error ()`; the store is unchanged in that case.
-/

/-- Lifecycle state of a single process (`Process.state` in
`src/lib/api.ts` / `algorithm-results`). -/
inductive PState where
  | new
  | ready
  | running
  | blocked
  | terminated
deriving DecidableEq, Repr

/-- A scheduling unit, from the `Process` interface of
`src/lib/store/algorithm-results` (re-exported through `part_002`).  The
source allows `id` to be absent or empty; both are falsy for `p.id || …`,
so they are collapsed to the empty string here. -/
structure Process where
  id : String
  name : String := ""
  arrivalTime : Int := 0
  burstTime : Int := 0
  ioBurstTime : Option Int := none
  priority : Option Int := none
  remainingTime : Option Int := none
  state : Option PState := none
  waitingTime : Option Int := none
  turnaroundTime : Option Int := none
  responseTime : Option Int := none
  completionTime : Option Int := none
deriving DecidableEq, Repr

/-- Queue partitions of the live snapshot (`SimulationQueues`,
`part_002` lines 6-11). -/
structure SimulationQueues where
  readyQueue : List Process
  runningProcess : Option Process
  waitingQueue : List Process
  completedProcesses : List Process
deriving DecidableEq, Repr

/-- Rolling statistics of the live snapshot (`SimulationState.statistics`,
`part_002` lines 18-24; `throughput` is optional in the interface). -/
structure SimStatistics where
  cpuUtilization : String
  avgWaitingTime : String
  avgTurnaroundTime : String
  avgResponseTime : String
  throughput : Option String
deriving DecidableEq, Repr

/-- A statistic payload value: JS `string | number`.  Only integer-valued
numbers are embedded; for those `toString()` prints the plain decimal
numeral with no decimal point. -/
inductive StatVal where
  | str (s : String)
  | num (n : Int)
deriving DecidableEq, Repr

/-- JS `v.toString()` on a `StatVal`. -/
def StatVal.jsToString : StatVal → String
  | .str s => s
  | .num n => toString n

/-- Detailed-metrics record (`SimulationState.detailedMetrics`,
`part_002` lines 25-33): the seven keys the reconciler copies out of an
incoming statistics record, stored with their raw `string | number` values. -/
structure DetailedMetrics where
  contextSwitches : Option StatVal := none
  cpuIdleTime : Option StatVal := none
  cpuIdlePercentage : Option StatVal := none
  readyQueueLength : Option StatVal := none
  waitingQueueLength : Option StatVal := none
  algorithmType : Option StatVal := none
  tickSpeed : Option StatVal := none
deriving DecidableEq, Repr

/-- `Object.keys(detailedMetrics).length > 0` for the extracted record. -/
def DetailedMetrics.nonEmpty (d : DetailedMetrics) : Bool :=
  d.contextSwitches.isSome || d.cpuIdleTime.isSome || d.cpuIdlePercentage.isSome ||
  d.readyQueueLength.isSome || d.waitingQueueLength.isSome ||
  d.algorithmType.isSome || d.tickSpeed.isSome

/-- Algorithm configuration (`SimulationState.algorithmConfig`,
`part_002` lines 35-38). -/
structure AlgorithmConfig where
  timeQuantum : Option Int := none
  showDetailedMetrics : Option Bool := none
deriving DecidableEq, Repr

/-- Lifecycle status of the simulation (`part_002` line 39). -/
inductive SStatus where
  | idle
  | running
  | paused
  | completed
deriving DecidableEq, Repr

/-- The canonical snapshot (`SimulationState`, `part_002` lines 14-40). -/
structure SimulationState where
  currentTime : Int
  processes : List Process
  queues : SimulationQueues
  statistics : SimStatistics
  detailedMetrics : DetailedMetrics
  algorithm : String
  algorithmConfig : AlgorithmConfig
  status : SStatus
deriving DecidableEq, Repr

/-- `initialState` (`part_002` lines 54-74). -/
def initialState : SimulationState where
  currentTime := 0
  processes := []
  queues := { readyQueue := [], runningProcess := none, waitingQueue := [],
              completedProcesses := [] }
  statistics := { cpuUtilization := "0.00", avgWaitingTime := "0.00",
                  avgTurnaroundTime := "0.00", avgResponseTime := "0.00",
                  throughput := some "0.00" }
  detailedMetrics := {}
  algorithm := "FCFS"
  algorithmConfig := {}
  status := .idle

/-- An incoming value in an array-valued slot of a step payload: either a
well-formed array of process objects, or some other JS value of which the
reconciler only ever observes the truthiness (`mal true` is a truthy
non-array such as `5` or `{}`; `mal false` is a falsy one such as `null`,
`0` or `""`). -/
inductive ArrVal where
  | arr (ps : List Process)
  | mal (truthy : Bool)
deriving DecidableEq, Repr

/-- `Array.isArray(v)` for a present value. -/
def ArrVal.isArr : ArrVal → Bool
  | .arr _ => true
  | .mal _ => false

/-- Incoming statistics record (`data.statistics` of `SimulationStepData`,
`src/lib/socket.ts` lines 120-130: `Record<string, string | number>`),
restricted to the twelve keys the reconciler reads. -/
structure IncomingStats where
  cpuUtilization : Option StatVal := none
  avgWaitingTime : Option StatVal := none
  avgTurnaroundTime : Option StatVal := none
  avgResponseTime : Option StatVal := none
  throughput : Option StatVal := none
  contextSwitches : Option StatVal := none
  cpuIdleTime : Option StatVal := none
  cpuIdlePercentage : Option StatVal := none
  readyQueueLength : Option StatVal := none
  waitingQueueLength : Option StatVal := none
  algorithmType : Option StatVal := none
  tickSpeed : Option StatVal := none
deriving DecidableEq, Repr

/-- Incoming `data.queues` of a step payload.  `runningProcess`:
`none` = key absent / `undefined`, `some none` = explicit `null`,
`some (some p)` = a process object. -/
structure IncomingQueues where
  readyQueue : Option ArrVal := none
  runningProcess : Option (Option Process) := none
  waitingQueue : Option ArrVal := none
  completedProcesses : Option ArrVal := none
deriving DecidableEq, Repr

/-- `SimulationStepData` (`src/lib/socket.ts` lines 120-130), with every
field optional as it is at run time for a duck-typed stream payload. -/
structure SimulationStepData where
  currentTime : Option Int := none
  processes : Option ArrVal := none
  queues : Option IncomingQueues := none
  statistics : Option IncomingStats := none
deriving DecidableEq, Repr

/-- The id synthesised for a process lacking one:
`` `process-${Math.random().toString(36).substring(2, 9)}` `` with the random
suffix replaced by the next draw `gen k` of the explicit stream. -/
def genIdStr (gen : Nat → String) (k : Nat) : String :=
  "process-" ++ gen k

/-- `{...p, id: p.id || fresh}` for one process object, threading the
draw counter: a draw is consumed only when the supplied id is falsy. -/
def sanitizeOne (gen : Nat → String) (k : Nat) (p : Process) : Process × Nat :=
  if p.id = "" then ({ p with id := genIdStr gen k }, k + 1) else (p, k)

/-- `list.map(p => ({...p, id: p.id || fresh}))`, threading the draw
counter left to right. -/
def sanitizeList (gen : Nat → String) (k : Nat) : List Process → List Process × Nat
  | [] => ([], k)
  | p :: ps =>
    let q := sanitizeOne gen k p
    let rest := sanitizeList gen q.2 ps
    (q.1 :: rest.1, rest.2)

/-- Merge of an array-valued slot guarded by `Array.isArray` (used for
`data.processes`, `data.queues?.waitingQueue`,
`data.queues?.completedProcesses`): a well-formed array is sanitised and
replaces the field, anything else retains the previous value. -/
def mergeArrField (gen : Nat → String) (k : Nat) (v : Option ArrVal)
    (prev : List Process) : List Process × Nat :=
  match v with
  | some (.arr ps) => sanitizeList gen k ps
  | _ => (prev, k)

/-- Merge of the running slot (`part_002` lines 140-142): a truthy incoming
process object is sanitised and replaces the slot; `null`/absent retains the
previous slot. -/
def mergeRunning (gen : Nat → String) (k : Nat) (v : Option (Option Process))
    (prev : Option Process) : Option Process × Nat :=
  match v with
  | some (some p) =>
    let (q, k1) := sanitizeOne gen k p
    (some q, k1)
  | _ => (prev, k)

/-- `data.queues?.f` for a queue slot of the payload. -/
def queueField (data : SimulationStepData) (f : IncomingQueues → Option α) :
    Option α :=
  data.queues.bind f

/-- One scalar statistic merge:
`data.statistics?.f?.toString() ?? prev.simulation.statistics.f`. -/
def mergeStat (v : Option StatVal) (prev : String) : String :=
  match v with
  | some x => x.jsToString
  | none => prev

/-- The statistics record of the merged snapshot (`part_002` lines 156-163). -/
def mergeStatistics (st : Option IncomingStats) (prev : SimStatistics) :
    SimStatistics :=
  match st with
  | none => prev
  | some s =>
    { cpuUtilization := mergeStat s.cpuUtilization prev.cpuUtilization
      avgWaitingTime := mergeStat s.avgWaitingTime prev.avgWaitingTime
      avgTurnaroundTime := mergeStat s.avgTurnaroundTime prev.avgTurnaroundTime
      avgResponseTime := mergeStat s.avgResponseTime prev.avgResponseTime
      throughput :=
        match s.throughput with
        | some x => some x.jsToString
        | none => prev.throughput }

/-- Extraction of the detailed-metrics record (`part_002` lines 107-116):
each of the seven keys is copied when it is present in `data.statistics`. -/
def extractDetailedMetrics (st : Option IncomingStats) : DetailedMetrics :=
  match st with
  | none => {}
  | some s =>
    { contextSwitches := s.contextSwitches
      cpuIdleTime := s.cpuIdleTime
      cpuIdlePercentage := s.cpuIdlePercentage
      readyQueueLength := s.readyQueueLength
      waitingQueueLength := s.waitingQueueLength
      algorithmType := s.algorithmType
      tickSpeed := s.tickSpeed }

/-- The merged snapshot produced by the non-throwing path of
`updateSimulationStep` (`part_002` lines 103-170), the reconciler's
`applyStep`.  The draw counter is threaded in source evaluation order: flat
process list, ready queue, waiting queue, completed processes, running
slot.  The ready-queue merge (`part_002` lines 127-129) is guarded by
truthiness only (`data.queues?.readyQueue ? … .map(…) : prev`); on every
non-throwing value (a well-formed array — an empty JS array is truthy —
or a falsy value such as absent, `null`, `0`, `""`) it coincides with
`mergeArrField`, and the throwing value is excluded by the guard in
`updateSimulationStep` below. -/
def stepMerged (gen : Nat → String) (data : SimulationStepData)
    (prev : SimulationState) : SimulationState :=
  let dm := extractDetailedMetrics data.statistics
  let sp := mergeArrField gen 0 data.processes prev.processes
  let rq := mergeArrField gen sp.2 (queueField data IncomingQueues.readyQueue)
    prev.queues.readyQueue
  let wq := mergeArrField gen rq.2 (queueField data IncomingQueues.waitingQueue)
    prev.queues.waitingQueue
  let cq := mergeArrField gen wq.2
    (queueField data IncomingQueues.completedProcesses)
    prev.queues.completedProcesses
  let rp := mergeRunning gen cq.2 (queueField data IncomingQueues.runningProcess)
    prev.queues.runningProcess
  { prev with
    currentTime := data.currentTime.getD prev.currentTime
    processes := sp.1
    queues := { readyQueue := rq.1
                runningProcess := rp.1
                waitingQueue := wq.1
                completedProcesses := cq.1 }
    statistics := mergeStatistics data.statistics prev.statistics
    detailedMetrics := if dm.nonEmpty then dm else prev.detailedMetrics }

/-- `updateSimulationStep` (`part_002` lines 103-170): a truthy non-array
ready queue reaches `.map` and raises a `TypeError` that escapes the `set`
callback and leaves the store untouched — the `Except.error ()` branch;
every other payload merges totally via `stepMerged`. -/
def updateSimulationStep (gen : Nat → String) (data : SimulationStepData)
    (prev : SimulationState) : Except Unit SimulationState :=
  match queueField data IncomingQueues.readyQueue with
  | some (.mal true) => .error ()
  | _ => .ok (stepMerged gen data prev)

/-- `resetSimulation` (`part_002` lines 84-86). -/
def resetSimulation : SimulationState := initialState

/-- `setAlgorithm` (`part_002` lines 88-94). -/
def setAlgorithm (algorithm : String) (config : AlgorithmConfig)
    (prev : SimulationState) : SimulationState :=
  { prev with algorithm := algorithm, algorithmConfig := config }

/-- `setProcesses` (`part_002` lines 96-101). -/
def setProcesses (processes : List Process) (prev : SimulationState) :
    SimulationState :=
  { prev with processes := processes }

/-- `setStatus` (`part_002` lines 172-177). -/
def setStatus (status : SStatus) (prev : SimulationState) : SimulationState :=
  { prev with status := status }

/-- Final statistics bundle of a completed run (`AlgorithmStatistics`,
`src/lib/api.ts` lines 194-203). -/
structure AlgorithmStatistics where
  totalProcesses : Int := 0
  totalTime : Int := 0
  cpuUtilization : String := ""
  avgWaitingTime : String := ""
  avgTurnaroundTime : String := ""
  avgResponseTime : String := ""
  avgArrivalsPerStep : String := ""
  throughput : String := ""
deriving DecidableEq, Repr

/-- One completed run (`AlgorithmResult`, `src/lib/api.ts` lines 206-212). -/
structure AlgorithmResult where
  id : String
  algorithm : String
  processes : List Process := []
  statistics : AlgorithmStatistics := {}
  timestamp : Int := 0
deriving DecidableEq, Repr

/-- `addResult` of `useAlgorithmResultsStore` (`src/lib/api.ts` lines
227-238): replace the entry found by `findIndex` on equal `algorithm`, else
append. -/
def addResult (result : AlgorithmResult) (results : List AlgorithmResult) :
    List AlgorithmResult :=
  match results.findIdx? (fun r => r.algorithm = result.algorithm) with
  | some i => results.set i result
  | none => results ++ [result]

/-- `clearResults` (`src/lib/api.ts` line 240). -/
def clearResults : List AlgorithmResult := []

/-- A mutation of the results registry: the store exposes exactly
`addResult` and `clearResults` as writers. -/
inductive RegistryOp where
  | add (result : AlgorithmResult)
  | clear
deriving Repr

/-- State of the registry after a sequence of mutations applied to the
initial empty `results` array (`src/lib/api.ts` line 225), oldest first. -/
def runRegistry : List RegistryOp → List AlgorithmResult
  | [] => []
  | op :: ops =>
    let l := runRegistry ops
    match op with
    | .add r => addResult r l
    | .clear => clearResults

/-- The five tracked metrics, in the order of the component's default
`metrics` prop (`AlgorithmComparisonChart.tsx` lines 410-416). -/
inductive MetricKey where
  | cpuUtilization
  | avgWaitingTime
  | avgTurnaroundTime
  | avgResponseTime
  | throughput
deriving DecidableEq, Repr

/-- `['avgWaitingTime', 'avgTurnaroundTime', 'avgResponseTime'].includes(metric.key)`
(`AlgorithmComparisonChart.tsx` lines 567 and 602). -/
def isLowerBetter : MetricKey → Bool
  | .avgWaitingTime => true
  | .avgTurnaroundTime => true
  | .avgResponseTime => true
  | _ => false

/-- The default metric-key list, in prop order. -/
def metricKeys : List MetricKey :=
  [.cpuUtilization, .avgWaitingTime, .avgTurnaroundTime, .avgResponseTime,
   .throughput]

/-- One parsed chart row (`ChartDataItem` built at
`AlgorithmComparisonChart.tsx` lines 455-472): statistics parsed to numbers,
embedded with exact rationals. -/
structure ChartDataItem where
  algorithm : String
  algorithmName : String
  cpuUtilization : Rat
  avgWaitingTime : Rat
  avgTurnaroundTime : Rat
  avgResponseTime : Rat
  throughput : Rat
deriving DecidableEq, Repr

/-- `(item as Record<string, number>)[metric.key]`. -/
def metricValue (a : ChartDataItem) : MetricKey → Rat
  | .cpuUtilization => a.cpuUtilization
  | .avgWaitingTime => a.avgWaitingTime
  | .avgTurnaroundTime => a.avgTurnaroundTime
  | .avgResponseTime => a.avgResponseTime
  | .throughput => a.throughput

/-- `getAlgorithmFullName` (`src/lib/utils.ts` lines 57-69). -/
def getAlgorithmFullName (algorithm : String) : String :=
  if algorithm = "FCFS" then "First-Come, First-Served"
  else if algorithm = "SJF" then "Shortest Job First"
  else if algorithm = "SRTF" then "Shortest Remaining Time First"
  else if algorithm = "RR" then "Round Robin"
  else if algorithm = "PRIORITY" then "Priority (Non-preemptive)"
  else if algorithm = "PRIORITY_P" then "Priority (Preemptive)"
  else if algorithm = "RANDOM" then "Random"
  else algorithm

/-- The `chartData` rows computed from the stored results
(`AlgorithmComparisonChart.tsx` lines 447-473).  `parse` embeds
`parseFloat(s || '0')`; in the typed registry every result carries a
statistics bundle, so the `null`-filter drops nothing and the row list is a
plain map.  Throughput is scaled by 100 for chart visibility, as in the
source. -/
def chartDataOf (parse : String → Rat) (results : List AlgorithmResult) :
    List ChartDataItem :=
  results.map fun result =>
    { algorithm := result.algorithm
      algorithmName := getAlgorithmFullName result.algorithm
      cpuUtilization := parse result.statistics.cpuUtilization
      avgWaitingTime := parse result.statistics.avgWaitingTime
      avgTurnaroundTime := parse result.statistics.avgTurnaroundTime
      avgResponseTime := parse result.statistics.avgResponseTime
      throughput := parse result.statistics.throughput * 100 }

/-- Best-per-metric entry (`MetricValue`, `AlgorithmComparisonChart.tsx`
lines 404-407; the `algorithm` field holds the display name). -/
structure MetricValue where
  algorithm : String
  value : Rat
deriving DecidableEq, Repr

/-- One entry of `weightedScores` (`AlgorithmComparisonChart.tsx`
lines 622-626). -/
structure WeightedScore where
  algorithm : String
  algorithmName : String
  score : Rat
deriving DecidableEq, Repr

/-- The `chartData.forEach` scan of the best-per-metric loop
(`AlgorithmComparisonChart.tsx` lines 569-584): strict `<` for
lower-is-better metrics, strict `>` otherwise, so an equal value never
displaces the current best. -/
def scanBest (m : MetricKey) (best : ChartDataItem × Rat) :
    List ChartDataItem → ChartDataItem × Rat
  | [] => best
  | a :: rest =>
    let value := metricValue a m
    let best' :=
      if isLowerBetter m then
        if value < best.2 then (a, value) else best
      else
        if value > best.2 then (a, value) else best
    scanBest m best' rest

/-- `bestAlgorithms[metric.key]` for one metric (`AlgorithmComparisonChart.tsx`
lines 561-592): the running best starts at `chartData[0]` and the scan
revisits the whole row list. -/
def bestForMetric (x : ChartDataItem) (xs : List ChartDataItem)
    (m : MetricKey) : MetricValue :=
  let best := scanBest m (x, metricValue x m) (x :: xs)
  { algorithm := best.1.algorithmName, value := best.2 }

/-- `Math.min(...numericValues)` over the metric column of all rows. -/
def metricMin (m : MetricKey) (x : ChartDataItem) (xs : List ChartDataItem) :
    Rat :=
  xs.foldl (fun acc a => min acc (metricValue a m)) (metricValue x m)

/-- `Math.max(...numericValues)` over the metric column of all rows. -/
def metricMax (m : MetricKey) (x : ChartDataItem) (xs : List ChartDataItem) :
    Rat :=
  xs.foldl (fun acc a => max acc (metricValue a m)) (metricValue x m)

/-- One metric's contribution to a row's weighted score
(`AlgorithmComparisonChart.tsx` lines 600-620): zero when the min-max range
is zero (the `if (range === 0) return` early exit), otherwise min-max
normalisation, inverted for lower-is-better metrics. -/
def contribution (m : MetricKey) (x : ChartDataItem) (xs : List ChartDataItem)
    (a : ChartDataItem) : Rat :=
  let minValue := metricMin m x xs
  let maxValue := metricMax m x xs
  let range := maxValue - minValue
  if range = 0 then 0
  else if isLowerBetter m then
    1 - (metricValue a m - minValue) / range
  else
    (metricValue a m - minValue) / range

/-- A row's total weighted score: the `metrics.forEach` accumulation
starting from `let score = 0`. -/
def overallScore (x : ChartDataItem) (xs : List ChartDataItem)
    (a : ChartDataItem) : Rat :=
  metricKeys.foldl (fun s m => s + contribution m x xs a) 0

/-- The unsorted `weightedScores` entry of one row. -/
def toWeightedScore (x : ChartDataItem) (xs : List ChartDataItem)
    (a : ChartDataItem) : WeightedScore :=
  { algorithm := a.algorithm, algorithmName := a.algorithmName,
    score := overallScore x xs a }

/-- The order produced by the comparator `(a, b) => b.score - a.score`:
`a` may come no later than `b` exactly when `b.score ≤ a.score`. -/
def scoreGE (a b : WeightedScore) : Prop := b.score ≤ a.score

instance : DecidableRel scoreGE :=
  fun a b => inferInstanceAs (Decidable (b.score ≤ a.score))

instance : IsTotal WeightedScore scoreGE :=
  ⟨fun a b => (le_total b.score a.score).imp id id⟩

instance : IsTrans WeightedScore scoreGE :=
  ⟨fun _ _ _ h1 h2 => le_trans h2 h1⟩

/-- `weightedScores.sort((a, b) => b.score - a.score)`
(`AlgorithmComparisonChart.tsx` lines 630-633): JS `Array.prototype.sort`
is stable, so the comparator determines the result uniquely — the stable
descending order, embedded as stable insertion sort. -/
def sortDesc (l : List WeightedScore) : List WeightedScore :=
  List.insertionSort scoreGE l

/-- The value of the `insights` memo when at least two rows exist
(`AlgorithmComparisonChart.tsx` lines 636-640). -/
structure Insights where
  bestAlgorithms : List (MetricKey × MetricValue)
  overallBest : Option WeightedScore
  weightedScores : List WeightedScore
deriving DecidableEq, Repr

/-- The `insights` memo (`AlgorithmComparisonChart.tsx` lines 555-641):
`null` for fewer than two rows, otherwise per-metric bests, the sorted
weighted scores and the overall best (`weightedScores[0]`). -/
def insights (chartData : List ChartDataItem) : Option Insights :=
  if chartData.length < 2 then none
  else
    match chartData with
    | [] => none
    | x :: xs =>
      let ws := sortDesc ((x :: xs).map (toWeightedScore x xs))
      some { bestAlgorithms := metricKeys.map fun m => (m, bestForMetric x xs m)
             overallBest := ws.head?
             weightedScores := ws }

/-- The displayed overall-score percentage
(`AlgorithmComparisonChart.tsx` line 831): `score / metrics.length * 100`. -/
def overallScorePercent (score : Rat) : Rat :=
  score / (metricKeys.length : Rat) * 100

/-- Spec-side: the incoming value of an array-valued slot is absent or not a
well-formed array (the situations in which the spec demands retention of the
previous value). -/
def notWellFormedArr (v : Option ArrVal) : Prop :=
  ∀ ps, v ≠ some (ArrVal.arr ps)

/-- Spec-side: the claimed snapshot invariant — the running slot is non-null
only when the lifecycle status is `running`. -/
def runningOnlyWhenRunning (s : SimulationState) : Prop :=
  s.queues.runningProcess = none ∨ s.status = SStatus.running

/-- Spec-side: `q` agrees with `p` on every process field other than `id`. -/
def sameCore (p q : Process) : Prop :=
  q.name = p.name ∧ q.arrivalTime = p.arrivalTime ∧ q.burstTime = p.burstTime ∧
  q.ioBurstTime = p.ioBurstTime ∧ q.priority = p.priority ∧
  q.remainingTime = p.remainingTime ∧ q.state = p.state ∧
  q.waitingTime = p.waitingTime ∧ q.turnaroundTime = p.turnaroundTime ∧
  q.responseTime = p.responseTime ∧ q.completionTime = p.completionTime

/-- Spec-side: the optimal value of a metric column — its minimum for a
lower-is-better metric, its maximum otherwise. -/
def columnBestValue (m : MetricKey) (x : ChartDataItem)
    (xs : List ChartDataItem) : Rat :=
  if isLowerBetter m then metricMin m x xs else metricMax m x xs

/-- A concrete deterministic instantiation of the random-suffix stream, used
by the concrete instances below. -/
def genNat : Nat → String := fun k => toString k

/-- Sample process with a non-empty id. -/
def procA : Process := { id := "p1", name := "A" }

/-- Sample process with a second non-empty id. -/
def procB : Process := { id := "p2", name := "B" }

/-- Sample process whose id is missing/empty. -/
def procNoId : Process := { id := "", name := "C" }

/-- A sample pre-state with non-trivial queues, statistics and time. -/
def sampleState : SimulationState :=
  { currentTime := 5
    processes := [procA, procB]
    queues := { readyQueue := [procB], runningProcess := some procA,
                waitingQueue := [procB], completedProcesses := [procA] }
    statistics := { cpuUtilization := "12.50", avgWaitingTime := "3.00",
                    avgTurnaroundTime := "9.00", avgResponseTime := "2.00",
                    throughput := some "0.40" }
    detailedMetrics := { contextSwitches := some (.num 3) }
    algorithm := "RR"
    algorithmConfig := { timeQuantum := some 2 }
    status := .running }

/-- The empty step payload: every field absent. -/
def emptyStep : SimulationStepData := {}

/-- A step payload whose ready queue is a truthy non-array (for example the
number `5`): mapping over it throws. -/
def badReadyStep : SimulationStepData :=
  { queues := some { readyQueue := some (.mal true) } }

/-- A step payload carrying only a running process. -/
def runOnlyStep : SimulationStepData :=
  { queues := some { runningProcess := some (some procA) } }

/-- A step payload whose statistics carry the number `50` for the CPU
utilisation. -/
def util50Step : SimulationStepData :=
  { statistics := some { cpuUtilization := some (.num 50) } }

/-- A fully-specified step payload whose running slot is an explicit `null`. -/
def fullNullRunStep : SimulationStepData :=
  { currentTime := some 7
    processes := some (.arr [procA])
    queues := some { readyQueue := some (.arr [procB]),
                     runningProcess := some none,
                     waitingQueue := some (.arr []),
                     completedProcesses := some (.arr []) }
    statistics := some { cpuUtilization := some (.str "10.00")
                         avgWaitingTime := some (.str "1.00")
                         avgTurnaroundTime := some (.str "2.00")
                         avgResponseTime := some (.str "3.00")
                         throughput := some (.str "0.10") } }

/-- The same fully-specified payload with the running slot carrying an
actual process. -/
def fullRunStep : SimulationStepData :=
  { fullNullRunStep with
    queues := some { readyQueue := some (.arr [procB]),
                     runningProcess := some (some procA),
                     waitingQueue := some (.arr []),
                     completedProcesses := some (.arr []) } }

/-- Sample completed run for the FCFS algorithm. -/
def resFCFS1 : AlgorithmResult := { id := "r1", algorithm := "FCFS" }

/-- A second completed run for the FCFS algorithm (a re-run). -/
def resFCFS2 : AlgorithmResult :=
  { id := "r2", algorithm := "FCFS",
    statistics := { cpuUtilization := "90.00" } }

/-- Sample completed run for the SJF algorithm. -/
def resSJF : AlgorithmResult := { id := "r3", algorithm := "SJF" }

/-- Chart row `A {waiting:10, util:50}` of the spec's worked example. -/
def rowA : ChartDataItem :=
  { algorithm := "A", algorithmName := "AlgoA", cpuUtilization := 50,
    avgWaitingTime := 10, avgTurnaroundTime := 0, avgResponseTime := 0,
    throughput := 0 }

/-- Chart row `B {waiting:5, util:80}` of the spec's worked example. -/
def rowB : ChartDataItem :=
  { algorithm := "B", algorithmName := "AlgoB", cpuUtilization := 80,
    avgWaitingTime := 5, avgTurnaroundTime := 0, avgResponseTime := 0,
    throughput := 0 }

/-- A trivial concrete instantiation of the `parseFloat` parameter. -/
def parseZero : String → Rat := fun _ => 0

/-- The only error of `updateSimulationStep` is the `TypeError` raised by
mapping over a truthy non-array ready queue. -/
theorem updateStep_error_iff (gen : Nat → String) (data : SimulationStepData)
    (prev : SimulationState) :
    updateSimulationStep gen data prev = .error () ↔
      queueField data IncomingQueues.readyQueue = some (.mal true) := by
  unfold updateSimulationStep
  rcases hv : queueField data IncomingQueues.readyQueue with _ | v
  · simp
  · rcases v with ps | b
    · simp
    · cases b <;> simp

/-- A successful `updateSimulationStep` returns exactly the merged snapshot. -/
theorem updateStep_ok_iff (gen : Nat → String) (data : SimulationStepData)
    (prev : SimulationState) (s' : SimulationState) :
    updateSimulationStep gen data prev = .ok s' ↔
      (queueField data IncomingQueues.readyQueue ≠ some (.mal true) ∧
        s' = stepMerged gen data prev) := by
  unfold updateSimulationStep
  rcases hv : queueField data IncomingQueues.readyQueue with _ | v
  · simp [eq_comm]
  · rcases v with ps | b
    · simp [eq_comm]
    · cases b <;> simp [eq_comm]

/-- An absent or non-array incoming value leaves an `Array.isArray`-guarded
slot unchanged and consumes no draws. -/
theorem mergeArrField_not_arr (gen : Nat → String) (k : Nat) (v : Option ArrVal)
    (prev : List Process) (h : notWellFormedArr v) :
    mergeArrField gen k v prev = (prev, k) := by
  rcases v with _ | (ps | b)
  · rfl
  · exact absurd rfl (h ps)
  · rfl

/-- C7: with fewer than two stored runs (zero or one), the comparison
analytics returns `null` — no per-metric best, no weighted ranking, no
overall winner — signalling insufficient data. -/
theorem insights_insufficient_data (parse : String → Rat)
    (results : List AlgorithmResult) (h : results.length < 2) :
    insights (chartDataOf parse results) = none := by
  have hlen : (chartDataOf parse results).length < 2 := by
    simpa [chartDataOf] using h
  simp [insights, hlen]

/-- Witness for C7 at a single stored run. -/
theorem insights_insufficient_data_witness :
    [resFCFS1].length < 2 ∧ insights (chartDataOf parseZero [resFCFS1]) = none :=
  ⟨by decide, insights_insufficient_data parseZero [resFCFS1] (by decide)⟩

/-- Counterexample to C2: from the initial (freshly reset) snapshot, one
step payload carrying only a running process yields a reachable state whose
status is still `idle` while the running slot is occupied, so the claimed
invariant does not hold in all reachable states and `applyStep` does not
preserve it. -/
theorem running_slot_invariant_violated :
    (updateSimulationStep genNat runOnlyStep initialState).toOption.map
        (fun s => (s.status, s.queues.runningProcess.isSome)) =
      some (SStatus.idle, true) := by
  rfl

/-- C2 as amended: immediately after `reset()` the running slot is null and
the status is `idle`, and `setAlgorithm` and `setProcesses` preserve the
running-only-when-running invariant (they touch neither field); `applyStep`
and `setStatus` do not preserve it. -/
theorem running_slot_reset_and_preserving_ops :
    (resetSimulation.queues.runningProcess = none ∧
      resetSimulation.status = SStatus.idle) ∧
    (∀ (s : SimulationState) (alg : String) (cfg : AlgorithmConfig),
        runningOnlyWhenRunning s →
          runningOnlyWhenRunning (setAlgorithm alg cfg s)) ∧
    (∀ (s : SimulationState) (ps : List Process),
        runningOnlyWhenRunning s → runningOnlyWhenRunning (setProcesses ps s)) := by
  refine ⟨⟨rfl, rfl⟩, ?_, ?_⟩
  · intro s alg cfg h
    exact h
  · intro s ps h
    exact h

/-- Witness for C2's amended statement at concrete operations. -/
theorem running_slot_reset_and_preserving_ops_witness :
    runningOnlyWhenRunning (setAlgorithm "RR" {} initialState) ∧
    runningOnlyWhenRunning (setProcesses [procA] initialState) :=
  ⟨running_slot_reset_and_preserving_ops.2.1 initialState "RR" {} (Or.inl rfl),
   running_slot_reset_and_preserving_ops.2.2 initialState [procA] (Or.inl rfl)⟩

/-- C10: a step whose running slot is absent or an explicit `null` retains
the previous running process; a successful step can replace the slot but
never clears an occupied slot to null; only `reset()` returns it to null. -/
theorem running_slot_never_cleared_by_step :
    (∀ (gen : Nat → String) (data : SimulationStepData)
        (prev s' : SimulationState),
      updateSimulationStep gen data prev = .ok s' →
        ((queueField data IncomingQueues.runningProcess = none ∨
          queueField data IncomingQueues.runningProcess = some none) →
            s'.queues.runningProcess = prev.queues.runningProcess) ∧
        (prev.queues.runningProcess.isSome →
            s'.queues.runningProcess.isSome)) ∧
    resetSimulation.queues.runningProcess = none := by
  refine ⟨?_, rfl⟩
  intro gen data prev s' hok
  rcases (updateStep_ok_iff gen data prev s').1 hok with ⟨-, rfl⟩
  constructor
  · rintro (h | h) <;> simp [stepMerged, mergeRunning, h]
  · intro hsome
    rcases hv : queueField data IncomingQueues.runningProcess with _ | (_ | p)
    · simpa [stepMerged, mergeRunning, hv] using hsome
    · simpa [stepMerged, mergeRunning, hv] using hsome
    · simp [stepMerged, mergeRunning, hv]

/-- Witness for C10: a null incoming slot retains `sampleState`'s running
process. -/
theorem running_slot_never_cleared_by_step_witness :
    (stepMerged genNat fullNullRunStep sampleState).queues.runningProcess =
      sampleState.queues.runningProcess :=
  ((running_slot_never_cleared_by_step.1 genNat fullNullRunStep sampleState
      (stepMerged genNat fullNullRunStep sampleState) (by rfl)).1 (Or.inr rfl))

/-- Counterexample to C3: the number `50` arriving as CPU utilisation is
stored via `toString()` as `"50"`, not as the claimed canonical two-decimal
string `"50.00"`. -/
theorem statistic_not_two_decimal :
    (updateSimulationStep genNat util50Step initialState).toOption.map
        (fun s => s.statistics.cpuUtilization) = some "50" ∧
      ("50" : String) ≠ "50.00" := by
  exact ⟨rfl, by decide⟩

/-- C3 as amended: each of the five statistic fields merged by `applyStep`
is stored as the JS `toString()` image of the incoming value — a string
verbatim, an integer-valued number as its plain decimal numeral with no
two-decimal canonicalisation — and an absent field retains the previous
stored string. -/
theorem statistics_stored_via_toString (gen : Nat → String)
    (data : SimulationStepData) (prev : SimulationState)
    (s' : SimulationState) (st : IncomingStats)
    (hok : updateSimulationStep gen data prev = .ok s')
    (hst : data.statistics = some st) :
    ((∀ v, st.cpuUtilization = some v →
        s'.statistics.cpuUtilization = v.jsToString) ∧
     (st.cpuUtilization = none →
        s'.statistics.cpuUtilization = prev.statistics.cpuUtilization)) ∧
    ((∀ v, st.avgWaitingTime = some v →
        s'.statistics.avgWaitingTime = v.jsToString) ∧
     (st.avgWaitingTime = none →
        s'.statistics.avgWaitingTime = prev.statistics.avgWaitingTime)) ∧
    ((∀ v, st.avgTurnaroundTime = some v →
        s'.statistics.avgTurnaroundTime = v.jsToString) ∧
     (st.avgTurnaroundTime = none →
        s'.statistics.avgTurnaroundTime = prev.statistics.avgTurnaroundTime)) ∧
    ((∀ v, st.avgResponseTime = some v →
        s'.statistics.avgResponseTime = v.jsToString) ∧
     (st.avgResponseTime = none →
        s'.statistics.avgResponseTime = prev.statistics.avgResponseTime)) ∧
    ((∀ v, st.throughput = some v →
        s'.statistics.throughput = some v.jsToString) ∧
     (st.throughput = none →
        s'.statistics.throughput = prev.statistics.throughput)) ∧
    (∀ n : Int, StatVal.jsToString (.num n) = toString n) ∧
    (∀ s : String, StatVal.jsToString (.str s) = s) := by
  rcases (updateStep_ok_iff gen data prev s').1 hok with ⟨-, rfl⟩
  refine ⟨⟨?_, ?_⟩, ⟨?_, ?_⟩, ⟨?_, ?_⟩, ⟨?_, ?_⟩, ⟨?_, ?_⟩,
    fun n => rfl, fun s => rfl⟩ <;>
    first
      | (intro v hv
         simp [stepMerged, mergeStatistics, mergeStat, hst, hv])
      | (intro hv
         simp [stepMerged, mergeStatistics, mergeStat, hst, hv])

/-- Witness for C3's amended statement: the payload carrying only the number
`50` for CPU utilisation stores `"50"` and leaves the waiting-time string
unchanged. -/
theorem statistics_stored_via_toString_witness :
    (stepMerged genNat util50Step initialState).statistics.cpuUtilization =
        StatVal.jsToString (.num 50) ∧
    (stepMerged genNat util50Step initialState).statistics.avgWaitingTime =
        initialState.statistics.avgWaitingTime := by
  have h := statistics_stored_via_toString genNat util50Step initialState
      (stepMerged genNat util50Step initialState)
      { cpuUtilization := some (.num 50) } (by rfl) (by rfl)
  exact ⟨h.1.1 _ rfl, h.2.1.2 rfl⟩

/-- Counterexample to C1: a step payload whose ready queue is a truthy
non-array makes `applyStep` throw (`.map` over a non-array) instead of
retaining the previous queue without throwing. -/
theorem readyQueue_truthy_nonarray_throws :
    updateSimulationStep genNat badReadyStep initialState = .error () := rfl

/-- C1 as amended: every snapshot field absent from the partial is retained,
and a present non-array incoming value also leaves the flat process list,
waiting queue and completed queue unchanged without throwing; the ready
queue retains its previous value only for an absent or falsy incoming value,
and `applyStep` throws exactly when `queues.readyQueue` is a truthy
non-array. -/
theorem applyStep_retention_and_throw (gen : Nat → String)
    (data : SimulationStepData) (prev : SimulationState) :
    (updateSimulationStep gen data prev = .error () ↔
      queueField data IncomingQueues.readyQueue = some (.mal true)) ∧
    ∀ s', updateSimulationStep gen data prev = .ok s' →
      (data.currentTime = none → s'.currentTime = prev.currentTime) ∧
      (notWellFormedArr data.processes → s'.processes = prev.processes) ∧
      ((queueField data IncomingQueues.readyQueue = none ∨
        queueField data IncomingQueues.readyQueue = some (.mal false)) →
          s'.queues.readyQueue = prev.queues.readyQueue) ∧
      (notWellFormedArr (queueField data IncomingQueues.waitingQueue) →
          s'.queues.waitingQueue = prev.queues.waitingQueue) ∧
      (notWellFormedArr (queueField data IncomingQueues.completedProcesses) →
          s'.queues.completedProcesses = prev.queues.completedProcesses) ∧
      (queueField data IncomingQueues.runningProcess = none →
          s'.queues.runningProcess = prev.queues.runningProcess) ∧
      (data.statistics = none →
          s'.statistics = prev.statistics ∧
          s'.detailedMetrics = prev.detailedMetrics) ∧
      (∀ st, data.statistics = some st →
        (st.cpuUtilization = none →
          s'.statistics.cpuUtilization = prev.statistics.cpuUtilization) ∧
        (st.avgWaitingTime = none →
          s'.statistics.avgWaitingTime = prev.statistics.avgWaitingTime) ∧
        (st.avgTurnaroundTime = none →
          s'.statistics.avgTurnaroundTime = prev.statistics.avgTurnaroundTime) ∧
        (st.avgResponseTime = none →
          s'.statistics.avgResponseTime = prev.statistics.avgResponseTime) ∧
        (st.throughput = none →
          s'.statistics.throughput = prev.statistics.throughput)) ∧
      ((extractDetailedMetrics data.statistics).nonEmpty = false →
          s'.detailedMetrics = prev.detailedMetrics) ∧
      (s'.algorithm = prev.algorithm ∧
        s'.algorithmConfig = prev.algorithmConfig ∧
        s'.status = prev.status) := by
  refine ⟨updateStep_error_iff gen data prev, ?_⟩
  intro s' hok
  rcases (updateStep_ok_iff gen data prev s').1 hok with ⟨-, rfl⟩
  refine ⟨?_, ?_, ?_, ?_, ?_, ?_, ?_, ?_, ?_, rfl, rfl, rfl⟩
  · intro h
    simp [stepMerged, h]
  · intro h
    simp [stepMerged, mergeArrField_not_arr gen 0 data.processes prev.processes h]
  · rintro (h | h) <;> simp [stepMerged, mergeArrField, h]
  · intro h
    simp [stepMerged, mergeArrField_not_arr _ _ _ _ h]
  · intro h
    simp [stepMerged, mergeArrField_not_arr _ _ _ _ h]
  · intro h
    simp [stepMerged, mergeRunning, h]
  · intro h
    simp [stepMerged, mergeStatistics, extractDetailedMetrics, h,
      DetailedMetrics.nonEmpty]
  · intro st hst
    refine ⟨?_, ?_, ?_, ?_, ?_⟩ <;>
      (intro h
       simp [stepMerged, mergeStatistics, mergeStat, hst, h])
  · intro h
    simp [stepMerged, h]

/-- Witness for C1's amended statement: the empty partial retains time,
process list and ready queue of a populated pre-state, and the throw
characterisation holds at the same input. -/
theorem applyStep_retention_and_throw_witness :
    (¬ updateSimulationStep genNat emptyStep sampleState = .error ()) ∧
    (stepMerged genNat emptyStep sampleState).currentTime =
        sampleState.currentTime ∧
    (stepMerged genNat emptyStep sampleState).processes =
        sampleState.processes ∧
    (stepMerged genNat emptyStep sampleState).queues.readyQueue =
        sampleState.queues.readyQueue := by
  have h := applyStep_retention_and_throw genNat emptyStep sampleState
  have h2 := h.2 (stepMerged genNat emptyStep sampleState) (by rfl)
  refine ⟨fun he => ?_, h2.1 rfl, h2.2.1 (fun ps hps => by cases hps),
    h2.2.2.1 (Or.inl rfl)⟩
  have := h.1.mp he
  cases this

/-- Sanitising a list in which every process already carries a non-empty id
changes nothing and consumes no draws. -/
theorem sanitizeList_id (gen : Nat → String) (k : Nat) (ps : List Process)
    (h : ∀ p ∈ ps, p.id ≠ "") : sanitizeList gen k ps = (ps, k) := by
  induction ps generalizing k with
  | nil => rfl
  | cons p ps ih =>
    have hp : p.id ≠ "" := h p (List.mem_cons_self p ps)
    have hps : ∀ q ∈ ps, q.id ≠ "" := fun q hq => h q (List.mem_cons_of_mem p hq)
    simp [sanitizeList, sanitizeOne, hp, ih k hps]

/-- Under a fully-specified well-formed payload with non-empty ids, the
merged time, process list, queues and statistics depend only on the payload,
not on the pre-state. -/
theorem stepMerged_fully_spec (gen : Nat → String) (data : SimulationStepData)
    (prev : SimulationState) (ct : Int) (ps rps ws cs : List Process)
    (q : IncomingQueues) (st : IncomingStats) (rp : Process)
    (vcpu vwt vtt vrt vthr : StatVal)
    (hct : data.currentTime = some ct)
    (hps : data.processes = some (.arr ps))
    (hq : data.queues = some q)
    (hready : q.readyQueue = some (.arr rps))
    (hwait : q.waitingQueue = some (.arr ws))
    (hcomp : q.completedProcesses = some (.arr cs))
    (hrun : q.runningProcess = some (some rp))
    (hst : data.statistics = some st)
    (hcpu : st.cpuUtilization = some vcpu)
    (hwt : st.avgWaitingTime = some vwt)
    (htt : st.avgTurnaroundTime = some vtt)
    (hrt : st.avgResponseTime = some vrt)
    (hthr : st.throughput = some vthr)
    (hid1 : ∀ p ∈ ps, p.id ≠ "") (hid2 : ∀ p ∈ rps, p.id ≠ "")
    (hid3 : ∀ p ∈ ws, p.id ≠ "") (hid4 : ∀ p ∈ cs, p.id ≠ "")
    (hid5 : rp.id ≠ "") :
    (stepMerged gen data prev).currentTime = ct ∧
    (stepMerged gen data prev).processes = ps ∧
    (stepMerged gen data prev).queues =
      { readyQueue := rps, runningProcess := some rp, waitingQueue := ws,
        completedProcesses := cs } ∧
    (stepMerged gen data prev).statistics =
      { cpuUtilization := vcpu.jsToString, avgWaitingTime := vwt.jsToString,
        avgTurnaroundTime := vtt.jsToString,
        avgResponseTime := vrt.jsToString,
        throughput := some vthr.jsToString } := by
  refine ⟨?_, ?_, ?_, ?_⟩ <;>
    simp [stepMerged, queueField, mergeArrField, mergeRunning, sanitizeOne,
      mergeStatistics, mergeStat, hct, hps, hq, hready, hwait, hcomp, hrun,
      hst, hcpu, hwt, htt, hrt, hthr, hid5,
      sanitizeList_id gen _ ps hid1, sanitizeList_id gen _ rps hid2,
      sanitizeList_id gen _ ws hid3, sanitizeList_id gen _ cs hid4]

/-- Counterexample to C9: a fully-specified payload whose `runningProcess`
field is present but `null` (every process in it carries a non-empty id)
merges differently after `reset()` than over a pre-state with an occupied
running slot — the null slot falls back to the pre-state, so the merged
fields are not independent of the pre-state. -/
theorem reset_replay_differs_on_null_running :
    (updateSimulationStep genNat fullNullRunStep resetSimulation).toOption.map
        (fun s => s.queues.runningProcess) = some none ∧
    (updateSimulationStep genNat fullNullRunStep sampleState).toOption.map
        (fun s => s.queues.runningProcess) = some (some procA) ∧
    (none : Option Process) ≠ some procA :=
  ⟨rfl, rfl, by decide⟩

/-- C9 as amended: for every pre-state and every fully-specified well-formed
payload whose running slot carries an actual process (a present-but-null
running slot instead falls back to the pre-state's slot) and whose processes
all carry non-empty ids, applying the payload after `reset()` yields the
same currentTime, processes, queues and statistics as applying it to the
pre-state directly. -/
theorem reset_replay_fully_specified (gen : Nat → String)
    (data : SimulationStepData) (prev : SimulationState) (ct : Int)
    (ps rps ws cs : List Process) (q : IncomingQueues) (st : IncomingStats)
    (rp : Process) (vcpu vwt vtt vrt vthr : StatVal)
    (hct : data.currentTime = some ct)
    (hps : data.processes = some (.arr ps))
    (hq : data.queues = some q)
    (hready : q.readyQueue = some (.arr rps))
    (hwait : q.waitingQueue = some (.arr ws))
    (hcomp : q.completedProcesses = some (.arr cs))
    (hrun : q.runningProcess = some (some rp))
    (hst : data.statistics = some st)
    (hcpu : st.cpuUtilization = some vcpu)
    (hwt : st.avgWaitingTime = some vwt)
    (htt : st.avgTurnaroundTime = some vtt)
    (hrt : st.avgResponseTime = some vrt)
    (hthr : st.throughput = some vthr)
    (hid1 : ∀ p ∈ ps, p.id ≠ "") (hid2 : ∀ p ∈ rps, p.id ≠ "")
    (hid3 : ∀ p ∈ ws, p.id ≠ "") (hid4 : ∀ p ∈ cs, p.id ≠ "")
    (hid5 : rp.id ≠ "") :
    (updateSimulationStep gen data prev).toOption.isSome = true ∧
    (updateSimulationStep gen data resetSimulation).toOption.map
        (fun s => (s.currentTime, s.processes, s.queues, s.statistics)) =
      (updateSimulationStep gen data prev).toOption.map
        (fun s => (s.currentTime, s.processes, s.queues, s.statistics)) := by
  have hrq : queueField data IncomingQueues.readyQueue = some (.arr rps) := by
    simp [queueField, hq, hready]
  have hne : queueField data IncomingQueues.readyQueue ≠ some (.mal true) := by
    simp [hrq]
  have hok1 : updateSimulationStep gen data prev =
      .ok (stepMerged gen data prev) :=
    (updateStep_ok_iff gen data prev _).2 ⟨hne, rfl⟩
  have hok2 : updateSimulationStep gen data resetSimulation =
      .ok (stepMerged gen data resetSimulation) :=
    (updateStep_ok_iff gen data resetSimulation _).2 ⟨hne, rfl⟩
  have h1 := stepMerged_fully_spec gen data prev ct ps rps ws cs q st rp
    vcpu vwt vtt vrt vthr hct hps hq hready hwait hcomp hrun hst hcpu hwt
    htt hrt hthr hid1 hid2 hid3 hid4 hid5
  have h2 := stepMerged_fully_spec gen data resetSimulation ct ps rps ws cs
    q st rp vcpu vwt vtt vrt vthr hct hps hq hready hwait hcomp hrun hst
    hcpu hwt htt hrt hthr hid1 hid2 hid3 hid4 hid5
  rw [hok1, hok2]
  refine ⟨rfl, ?_⟩
  simp only [Except.toOption, Option.map_some']
  rw [h1.1, h1.2.1, h1.2.2.1, h1.2.2.2, h2.1, h2.2.1, h2.2.2.1, h2.2.2.2]

/-- Witness for C9's amended statement at a concrete fully-specified
payload over a populated pre-state. -/
theorem reset_replay_fully_specified_witness :
    (updateSimulationStep genNat fullRunStep sampleState).toOption.isSome =
        true ∧
    (updateSimulationStep genNat fullRunStep resetSimulation).toOption.map
        (fun s => (s.currentTime, s.processes, s.queues, s.statistics)) =
      (updateSimulationStep genNat fullRunStep sampleState).toOption.map
        (fun s => (s.currentTime, s.processes, s.queues, s.statistics)) :=
  reset_replay_fully_specified genNat fullRunStep sampleState 7 [procA]
    [procB] [] []
    { readyQueue := some (.arr [procB]), runningProcess := some (some procA),
      waitingQueue := some (.arr []), completedProcesses := some (.arr []) }
    { cpuUtilization := some (.str "10.00"),
      avgWaitingTime := some (.str "1.00"),
      avgTurnaroundTime := some (.str "2.00"),
      avgResponseTime := some (.str "3.00"),
      throughput := some (.str "0.10") }
    procA (.str "10.00") (.str "1.00") (.str "2.00") (.str "3.00")
    (.str "0.10") rfl rfl rfl rfl rfl rfl rfl rfl rfl rfl rfl rfl rfl
    (by decide) (by decide) (by decide) (by decide) (by decide)

/-- `addResult` on a non-empty registry: replace the head if it carries the
same algorithm, otherwise recurse past it. -/
theorem addResult_cons (r x : AlgorithmResult) (l : List AlgorithmResult) :
    addResult r (x :: l) =
      if x.algorithm = r.algorithm then r :: l else x :: addResult r l := by
  unfold addResult
  rw [List.findIdx?_cons]
  by_cases hx : x.algorithm = r.algorithm
  · simp [hx]
  · rw [if_neg (by simpa using hx), if_neg hx, List.findIdx?_start_succ]
    rcases ho : List.findIdx? (fun x => decide (x.algorithm = r.algorithm)) l
      with _ | i <;> simp [ho]

/-- Membership in the algorithm column after `addResult`. -/
theorem mem_algorithms_addResult (r : AlgorithmResult)
    (l : List AlgorithmResult) (a : String) :
    a ∈ (addResult r l).map (·.algorithm) ↔
      a ∈ l.map (·.algorithm) ∨ a = r.algorithm := by
  induction l with
  | nil => simp [addResult]
  | cons x l ih =>
    rw [addResult_cons]
    by_cases hx : x.algorithm = r.algorithm
    · rw [if_pos hx]
      simp only [List.map_cons, List.mem_cons, hx]
      tauto
    · rw [if_neg hx]
      simp only [List.map_cons, List.mem_cons, ih]
      tauto

/-- `addResult` preserves distinctness of the algorithm column. -/
theorem addResult_nodup (r : AlgorithmResult) (l : List AlgorithmResult)
    (h : (l.map (·.algorithm)).Nodup) :
    ((addResult r l).map (·.algorithm)).Nodup := by
  induction l with
  | nil => simp [addResult]
  | cons x l ih =>
    rw [List.map_cons, List.nodup_cons] at h
    rw [addResult_cons]
    by_cases hx : x.algorithm = r.algorithm
    · rw [if_pos hx, List.map_cons, List.nodup_cons]
      exact ⟨hx ▸ h.1, h.2⟩
    · rw [if_neg hx, List.map_cons, List.nodup_cons]
      refine ⟨?_, ih h.2⟩
      intro hmem
      rcases (mem_algorithms_addResult r l x.algorithm).1 hmem with h1 | h1
      · exact h.1 h1
      · exact hx h1

/-- On a duplicate-free registry, the entries carrying the added result's
algorithm after `addResult` are exactly the added result. -/
theorem filter_addResult_self (r : AlgorithmResult) (l : List AlgorithmResult)
    (h : (l.map (·.algorithm)).Nodup) :
    (addResult r l).filter (fun x => x.algorithm = r.algorithm) = [r] := by
  induction l with
  | nil => simp [addResult]
  | cons x l ih =>
    rw [List.map_cons, List.nodup_cons] at h
    rw [addResult_cons]
    by_cases hx : x.algorithm = r.algorithm
    · rw [if_pos hx, List.filter_cons_of_pos (by simp)]
      have : l.filter (fun x => x.algorithm = r.algorithm) = [] := by
        rw [List.filter_eq_nil_iff]
        intro b hb hba
        exact h.1 (by
          rw [← hx] at hba
          simp only [decide_eq_true_eq] at hba
          exact hba ▸ List.mem_map_of_mem (·.algorithm) hb)
      rw [this]
    · rw [if_neg hx, List.filter_cons_of_neg (by simpa using hx)]
      exact ih h.2

/-- `addResult` leaves the entries of every other algorithm unchanged. -/
theorem filter_addResult_other (r : AlgorithmResult)
    (l : List AlgorithmResult) (a : String) (ha : a ≠ r.algorithm) :
    (addResult r l).filter (fun x => x.algorithm = a) =
      l.filter (fun x => x.algorithm = a) := by
  induction l with
  | nil =>
    rw [show addResult r [] = [r] from rfl,
      List.filter_cons_of_neg (by simpa using fun h => ha h.symm)]
  | cons x l ih =>
    rw [addResult_cons]
    by_cases hx : x.algorithm = r.algorithm
    · rw [if_pos hx,
        List.filter_cons_of_neg (by simpa using fun h => ha h.symm),
        List.filter_cons_of_neg (by
          simp only [decide_eq_true_eq]
          exact fun h => ha (hx ▸ h).symm)]
    · rw [if_neg hx, List.filter_cons, List.filter_cons, ih]

/-- Every reachable registry (any op sequence from the empty array) has a
duplicate-free algorithm column. -/
theorem runRegistry_nodup (ops : List RegistryOp) :
    ((runRegistry ops).map (·.algorithm)).Nodup := by
  induction ops with
  | nil => simp [runRegistry]
  | cons op ops ih =>
    cases op with
    | add r => exact addResult_nodup r _ ih
    | clear => simp [runRegistry, clearResults]

/-- C4: every reachable registry holds at most one entry per algorithm
identifier, and adding two results with the same algorithm leaves exactly
one entry for it — the second payload — while entries for every other
algorithm are unchanged. -/
theorem registry_unique_per_algorithm (ops : List RegistryOp)
    (r1 r2 : AlgorithmResult) (halg : r1.algorithm = r2.algorithm) :
    ((runRegistry ops).map (·.algorithm)).Nodup ∧
    (addResult r2 (addResult r1 (runRegistry ops))).filter
        (fun x => x.algorithm = r2.algorithm) = [r2] ∧
    ∀ a, a ≠ r2.algorithm →
      (addResult r2 (addResult r1 (runRegistry ops))).filter
          (fun x => x.algorithm = a) =
        (runRegistry ops).filter (fun x => x.algorithm = a) := by
  refine ⟨runRegistry_nodup ops, ?_, ?_⟩
  · exact filter_addResult_self r2 _
      (addResult_nodup r1 _ (runRegistry_nodup ops))
  · intro a ha
    rw [filter_addResult_other r2 _ a ha,
      filter_addResult_other r1 _ a (by rw [halg]; exact ha)]

/-- Witness for C4: re-running FCFS over a registry holding an SJF run
leaves exactly the second FCFS payload for FCFS and the SJF entry intact. -/
theorem registry_unique_per_algorithm_witness :
    (addResult resFCFS2 (addResult resFCFS1
        (runRegistry [RegistryOp.add resSJF]))).filter
      (fun x => x.algorithm = resFCFS2.algorithm) = [resFCFS2] ∧
    (addResult resFCFS2 (addResult resFCFS1
        (runRegistry [RegistryOp.add resSJF]))).filter
      (fun x => x.algorithm = "SJF") =
      (runRegistry [RegistryOp.add resSJF]).filter
        (fun x => x.algorithm = "SJF") :=
  ⟨(registry_unique_per_algorithm [RegistryOp.add resSJF] resFCFS1 resFCFS2
      (by decide)).2.1,
   (registry_unique_per_algorithm [RegistryOp.add resSJF] resFCFS1 resFCFS2
      (by decide)).2.2 "SJF" (by decide)⟩

/-- A synthesised id is never empty: it starts with the literal
`"process-"`. -/
theorem genIdStr_ne_empty (gen : Nat → String) (j : Nat) :
    genIdStr gen j ≠ "" := by
  intro h
  have := congrArg String.data h
  simp [genIdStr, String.data_append] at this

/-- The sanitised list has the length of the input list. -/
theorem sanitizeList_length (gen : Nat → String) (k : Nat)
    (ps : List Process) : (sanitizeList gen k ps).1.length = ps.length := by
  induction ps generalizing k with
  | nil => rfl
  | cons p ps ih =>
    by_cases hp : p.id = "" <;>
      simp [sanitizeList, sanitizeOne, hp, ih]

/-- Every synthesised id in a sanitised list uses a draw index in
`[k, k + ps.length)`. -/
theorem sanitizeList_synth_mem (gen : Nat → String) (k : Nat)
    (ps : List Process) :
    ∀ pq ∈ ps.zip (sanitizeList gen k ps).1, pq.1.id = "" →
      ∃ j, k ≤ j ∧ j < k + ps.length ∧ pq.2.id = genIdStr gen j := by
  induction ps generalizing k with
  | nil => intro pq hpq; cases hpq
  | cons p ps ih =>
    intro pq hpq hid
    by_cases hp : p.id = ""
    · simp only [sanitizeList] at hpq
      rw [List.zip_cons_cons, List.mem_cons] at hpq
      rcases hpq with h | h
      · subst h
        refine ⟨k, le_refl k, by simp, ?_⟩
        simp [sanitizeOne, hp]
      · rw [show (sanitizeOne gen k p).2 = k + 1 by simp [sanitizeOne, hp]]
          at h
        rcases ih (k + 1) pq h hid with ⟨j, hj1, hj2, hj3⟩
        exact ⟨j, by omega, by simp only [List.length_cons]; omega, hj3⟩
    · simp only [sanitizeList] at hpq
      rw [List.zip_cons_cons, List.mem_cons] at hpq
      rcases hpq with h | h
      · subst h
        simp only [sanitizeOne, if_neg hp] at hid
        exact absurd hid hp
      · rw [show (sanitizeOne gen k p).2 = k by simp [sanitizeOne, hp]] at h
        rcases ih k pq h hid with ⟨j, hj1, hj2, hj3⟩
        exact ⟨j, hj1, by simp only [List.length_cons]; omega, hj3⟩

/-- Element-wise behaviour of the sanitiser: the output id is non-empty, a
supplied non-empty id (and the whole process) is kept verbatim, and a
process lacking an id keeps every other field and receives a fresh
`process-`-prefixed id. -/
theorem sanitizeList_forall₂ (gen : Nat → String) (k : Nat)
    (ps : List Process) :
    List.Forall₂
      (fun p q => q.id ≠ "" ∧ (p.id ≠ "" → q = p) ∧
        (p.id = "" → sameCore p q ∧ ∃ j, k ≤ j ∧ q.id = genIdStr gen j))
      ps (sanitizeList gen k ps).1 := by
  induction ps generalizing k with
  | nil => exact List.Forall₂.nil
  | cons p ps ih =>
    simp only [sanitizeList]
    refine List.Forall₂.cons ?_ ?_
    · by_cases hp : p.id = ""
      · rw [show (sanitizeOne gen k p).1 = { p with id := genIdStr gen k }
            by simp [sanitizeOne, hp]]
        exact ⟨genIdStr_ne_empty gen k, fun h => absurd hp h,
          fun _ => ⟨by simp [sameCore], k, le_refl k, rfl⟩⟩
      · rw [show (sanitizeOne gen k p).1 = p by simp [sanitizeOne, hp]]
        exact ⟨hp, fun _ => rfl, fun h => absurd h hp⟩
    · by_cases hp : p.id = ""
      · rw [show (sanitizeOne gen k p).2 = k + 1 by simp [sanitizeOne, hp]]
        refine (ih (k + 1)).imp ?_
        rintro a b ⟨h1, h2, h3⟩
        refine ⟨h1, h2, fun ha => ?_⟩
        obtain ⟨hc, j, hj1, hj2⟩ := h3 ha
        exact ⟨hc, j, by omega, hj2⟩
      · rw [show (sanitizeOne gen k p).2 = k by simp [sanitizeOne, hp]]
        exact ih k

/-- Distinct draws give distinct synthesised ids: within one sanitiser call,
any two processes that both lacked an id receive different fresh ids,
provided the draw stream is collision-free on the indices the call uses. -/
theorem sanitizeList_synth_distinct (gen : Nat → String) (k : Nat)
    (ps : List Process)
    (hgen : ∀ i < k + ps.length, ∀ j < k + ps.length,
      genIdStr gen i = genIdStr gen j → i = j) :
    (ps.zip (sanitizeList gen k ps).1).Pairwise
      (fun a b => a.1.id = "" → b.1.id = "" → a.2.id ≠ b.2.id) := by
  induction ps generalizing k with
  | nil => exact List.Pairwise.nil
  | cons p ps ih =>
    simp only [sanitizeList]
    rw [List.zip_cons_cons]
    by_cases hp : p.id = ""
    · rw [show (sanitizeOne gen k p).2 = k + 1 by simp [sanitizeOne, hp]]
      refine List.Pairwise.cons ?_ ?_
      · intro pq hpq hid hid2 heq
        rcases sanitizeList_synth_mem gen (k + 1) ps pq hpq hid2
          with ⟨j, hj1, hj2, hj3⟩
        have hone : (sanitizeOne gen k p).1.id = genIdStr gen k := by
          simp [sanitizeOne, hp]
        have hkj : k = j := by
          refine hgen k (by simp) j ?_ ?_
          · simp only [List.length_cons]; omega
          · rw [← hone, heq, hj3]
        omega
      · refine ih (k + 1) ?_
        intro i hi j hj
        refine hgen i ?_ j ?_ <;> simp only [List.length_cons] <;> omega
    · rw [show (sanitizeOne gen k p).2 = k by simp [sanitizeOne, hp]]
      refine List.Pairwise.cons ?_ ?_
      · intro pq _ hid
        exact absurd hid hp
      · refine ih k ?_
        intro i hi j hj
        refine hgen i ?_ j ?_ <;> simp only [List.length_cons] <;> omega

/-- C8: every process-like object in any inbound list handled by `applyStep`
is sanitised so that the output id is non-empty — the supplied id when
non-empty, otherwise a freshly drawn `process-` id, distinct per sanitiser
call when the draw stream is collision-free (the source draws
`Math.random()` suffixes, embedded here as the explicit stream `gen`) —
and every other field is left exactly as supplied; the flat process list,
the three queue arrays and the running slot all go through this sanitiser. -/
theorem sanitizer_id_guarantees :
    (∀ (gen : Nat → String) (k : Nat) (ps : List Process),
      (sanitizeList gen k ps).1.length = ps.length ∧
      List.Forall₂ (fun p q => q.id ≠ "" ∧ (p.id ≠ "" → q = p) ∧
          (p.id = "" → sameCore p q ∧ ∃ j, k ≤ j ∧ q.id = genIdStr gen j))
        ps (sanitizeList gen k ps).1 ∧
      ((∀ i < k + ps.length, ∀ j < k + ps.length,
          genIdStr gen i = genIdStr gen j → i = j) →
        (ps.zip (sanitizeList gen k ps).1).Pairwise
          (fun a b => a.1.id = "" → b.1.id = "" → a.2.id ≠ b.2.id))) ∧
    (∀ (gen : Nat → String) (k : Nat) (p : Process),
      (sanitizeOne gen k p).1.id ≠ "" ∧
      (p.id ≠ "" → (sanitizeOne gen k p).1 = p) ∧
      (p.id = "" → sameCore p (sanitizeOne gen k p).1)) ∧
    (∀ (gen : Nat → String) (data : SimulationStepData)
        (prev s' : SimulationState),
      updateSimulationStep gen data prev = .ok s' →
        (∀ ps, data.processes = some (.arr ps) →
          ∃ k, s'.processes = (sanitizeList gen k ps).1) ∧
        (∀ ps, queueField data IncomingQueues.readyQueue = some (.arr ps) →
          ∃ k, s'.queues.readyQueue = (sanitizeList gen k ps).1) ∧
        (∀ ps, queueField data IncomingQueues.waitingQueue = some (.arr ps) →
          ∃ k, s'.queues.waitingQueue = (sanitizeList gen k ps).1) ∧
        (∀ ps,
          queueField data IncomingQueues.completedProcesses =
              some (.arr ps) →
          ∃ k, s'.queues.completedProcesses = (sanitizeList gen k ps).1) ∧
        (∀ p, queueField data IncomingQueues.runningProcess =
              some (some p) →
          ∃ k, s'.queues.runningProcess = some (sanitizeOne gen k p).1)) := by
  refine ⟨?_, ?_, ?_⟩
  · intro gen k ps
    exact ⟨sanitizeList_length gen k ps, sanitizeList_forall₂ gen k ps,
      sanitizeList_synth_distinct gen k ps⟩
  · intro gen k p
    by_cases hp : p.id = ""
    · refine ⟨?_, fun h => absurd hp h, fun _ => ?_⟩
      · rw [show (sanitizeOne gen k p).1 = { p with id := genIdStr gen k }
            by simp [sanitizeOne, hp]]
        exact genIdStr_ne_empty gen k
      · rw [show (sanitizeOne gen k p).1 = { p with id := genIdStr gen k }
            by simp [sanitizeOne, hp]]
        simp [sameCore]
    · rw [show (sanitizeOne gen k p).1 = p by simp [sanitizeOne, hp]]
      exact ⟨hp, fun _ => rfl, fun h => absurd h hp⟩
  · intro gen data prev s' hok
    rcases (updateStep_ok_iff gen data prev s').1 hok with ⟨-, rfl⟩
    refine ⟨?_, ?_, ?_, ?_, ?_⟩ <;>
      (intro ps h
       simp only [stepMerged, h]
       exact ⟨_, rfl⟩)

/-- Witness for C8 at a concrete list with two id-less processes around one
carrying an id: the two synthesised ids are distinct. -/
theorem sanitizer_id_guarantees_witness :
    ([procNoId, procA, procNoId].zip
        (sanitizeList genNat 0 [procNoId, procA, procNoId]).1).Pairwise
      (fun a b => a.1.id = "" → b.1.id = "" → a.2.id ≠ b.2.id) :=
  (sanitizer_id_guarantees.1 genNat 0 [procNoId, procA, procNoId]).2.2
    (by decide)

/-- A running minimum never exceeds its initial value. -/
theorem foldl_min_le_init (f : ChartDataItem → Rat) (l : List ChartDataItem)
    (v : Rat) : l.foldl (fun acc a => min acc (f a)) v ≤ v := by
  induction l generalizing v with
  | nil => exact le_refl v
  | cons a l ih => exact le_trans (ih (min v (f a))) (min_le_left _ _)

/-- A running maximum never drops below its initial value. -/
theorem le_foldl_max_init (f : ChartDataItem → Rat) (l : List ChartDataItem)
    (v : Rat) : v ≤ l.foldl (fun acc a => max acc (f a)) v := by
  induction l generalizing v with
  | nil => exact le_refl v
  | cons a l ih => exact le_trans (le_max_left _ _) (ih (max v (f a)))

/-- The best-per-metric scan for a lower-is-better metric: the final value
is the running minimum, and the final holder is the first element of
`b :: l` (initial best, then scan order) attaining it — strict `<` means a
tie never displaces the incumbent. -/
theorem scanBest_lower (m : MetricKey) (hm : isLowerBetter m = true)
    (l : List ChartDataItem) (b : ChartDataItem) :
    (scanBest m (b, metricValue b m) l).2 =
      l.foldl (fun acc a => min acc (metricValue a m)) (metricValue b m) ∧
    (b :: l).find?
        (fun a => metricValue a m = (scanBest m (b, metricValue b m) l).2) =
      some (scanBest m (b, metricValue b m) l).1 := by
  induction l generalizing b with
  | nil =>
    refine ⟨rfl, ?_⟩
    rw [List.find?_cons_of_pos _ (by simp [scanBest])]
    rfl
  | cons a l ih =>
    by_cases hc : metricValue a m < metricValue b m
    · have hs : scanBest m (b, metricValue b m) (a :: l) =
          scanBest m (a, metricValue a m) l := by
        simp [scanBest, hm, hc]
      rcases ih a with ⟨ih1, ih2⟩
      rw [hs]
      have hval : (scanBest m (a, metricValue a m) l).2 ≤ metricValue a m := by
        rw [ih1]; exact foldl_min_le_init _ _ _
      refine ⟨?_, ?_⟩
      · rw [ih1, List.foldl_cons, min_eq_right (le_of_lt hc)]
      · have hbne :
            ¬ (metricValue b m = (scanBest m (a, metricValue a m) l).2) :=
          (ne_of_gt (lt_of_le_of_lt hval hc))
        rw [List.find?_cons_of_neg _ (by simpa using hbne)]
        exact ih2
    · have hs : scanBest m (b, metricValue b m) (a :: l) =
          scanBest m (b, metricValue b m) l := by
        simp [scanBest, hm, hc]
      rcases ih b with ⟨ih1, ih2⟩
      rw [hs]
      have hscan : (scanBest m (b, metricValue b m) l).2 ≤ metricValue b m := by
        rw [ih1]; exact foldl_min_le_init _ _ _
      refine ⟨?_, ?_⟩
      · rw [ih1, List.foldl_cons, min_eq_left (not_lt.1 hc)]
      · by_cases hb :
            metricValue b m = (scanBest m (b, metricValue b m) l).2
        · rw [List.find?_cons_of_pos _ (by simpa using hb)]
          rw [List.find?_cons_of_pos _ (by simpa using hb)] at ih2
          exact ih2
        · rw [List.find?_cons_of_neg _ (by simpa using hb)]
          rw [List.find?_cons_of_neg _ (by simpa using hb)] at ih2
          have hane :
              ¬ (metricValue a m = (scanBest m (b, metricValue b m) l).2) := by
            intro he
            exact hb (le_antisymm (he ▸ not_lt.1 hc) hscan)
          rw [List.find?_cons_of_neg _ (by simpa using hane)]
          exact ih2

/-- The best-per-metric scan for a higher-is-better metric: the final value
is the running maximum, and the final holder is the first element of
`b :: l` attaining it. -/
theorem scanBest_upper (m : MetricKey) (hm : isLowerBetter m = false)
    (l : List ChartDataItem) (b : ChartDataItem) :
    (scanBest m (b, metricValue b m) l).2 =
      l.foldl (fun acc a => max acc (metricValue a m)) (metricValue b m) ∧
    (b :: l).find?
        (fun a => metricValue a m = (scanBest m (b, metricValue b m) l).2) =
      some (scanBest m (b, metricValue b m) l).1 := by
  induction l generalizing b with
  | nil =>
    refine ⟨rfl, ?_⟩
    rw [List.find?_cons_of_pos _ (by simp [scanBest])]
    rfl
  | cons a l ih =>
    by_cases hc : metricValue a m > metricValue b m
    · have hs : scanBest m (b, metricValue b m) (a :: l) =
          scanBest m (a, metricValue a m) l := by
        simp [scanBest, hm, hc]
      rcases ih a with ⟨ih1, ih2⟩
      rw [hs]
      have hval : metricValue a m ≤ (scanBest m (a, metricValue a m) l).2 := by
        rw [ih1]; exact le_foldl_max_init _ _ _
      refine ⟨?_, ?_⟩
      · rw [ih1, List.foldl_cons, max_eq_right (le_of_lt hc)]
      · have hbne :
            ¬ (metricValue b m = (scanBest m (a, metricValue a m) l).2) :=
          (ne_of_lt (lt_of_lt_of_le hc hval))
        rw [List.find?_cons_of_neg _ (by simpa using hbne)]
        exact ih2
    · have hs : scanBest m (b, metricValue b m) (a :: l) =
          scanBest m (b, metricValue b m) l := by
        simp [scanBest, hm, hc]
      rcases ih b with ⟨ih1, ih2⟩
      rw [hs]
      have hscan : metricValue b m ≤ (scanBest m (b, metricValue b m) l).2 := by
        rw [ih1]; exact le_foldl_max_init _ _ _
      refine ⟨?_, ?_⟩
      · rw [ih1, List.foldl_cons, max_eq_left (not_lt.1 hc)]
      · by_cases hb :
            metricValue b m = (scanBest m (b, metricValue b m) l).2
        · rw [List.find?_cons_of_pos _ (by simpa using hb)]
          rw [List.find?_cons_of_pos _ (by simpa using hb)] at ih2
          exact ih2
        · rw [List.find?_cons_of_neg _ (by simpa using hb)]
          rw [List.find?_cons_of_neg _ (by simpa using hb)] at ih2
          have hane :
              ¬ (metricValue a m = (scanBest m (b, metricValue b m) l).2) := by
            intro he
            exact hb (le_antisymm hscan (he ▸ not_lt.1 hc))
          rw [List.find?_cons_of_neg _ (by simpa using hane)]
          exact ih2

/-- Duplicating the head does not change a `find?`. -/
theorem find?_cons_self_dup (p : ChartDataItem → Bool) (x : ChartDataItem)
    (l : List ChartDataItem) : (x :: x :: l).find? p = (x :: l).find? p := by
  by_cases hx : p x
  · rw [List.find?_cons_of_pos _ hx, List.find?_cons_of_pos _ hx]
  · rw [List.find?_cons_of_neg _ hx, List.find?_cons_of_neg _ hx]


/-- C5: for at least two runs, the per-metric best is the scan of the rows
in stored order with strict `<` for lower-is-better metrics and strict `>`
otherwise — extensionally, the reported value is the column optimum and the
reported algorithm is the *first* row attaining it (ties keep the earlier
row). -/
theorem best_per_metric_first_optimum (x : ChartDataItem)
    (xs : List ChartDataItem) (m : MetricKey) (w : ChartDataItem)
    (_hlen : 1 ≤ xs.length)
    (hfind : (x :: xs).find?
        (fun a => metricValue a m = columnBestValue m x xs) = some w) :
    bestForMetric x xs m =
      { algorithm := w.algorithmName, value := columnBestValue m x xs } := by
  cases hm : isLowerBetter m with
  | true =>
    rcases scanBest_lower m hm (x :: xs) x with ⟨h1, h2⟩
    have hval : (scanBest m (x, metricValue x m) (x :: xs)).2 =
        columnBestValue m x xs := by
      rw [h1]
      simp [columnBestValue, hm, metricMin, List.foldl_cons, min_self]
    rw [hval, find?_cons_self_dup, hfind] at h2
    have hw : (scanBest m (x, metricValue x m) (x :: xs)).1 = w :=
      (Option.some.inj h2).symm
    simp only [bestForMetric]
    rw [hw, hval]
  | false =>
    rcases scanBest_upper m hm (x :: xs) x with ⟨h1, h2⟩
    have hval : (scanBest m (x, metricValue x m) (x :: xs)).2 =
        columnBestValue m x xs := by
      rw [h1]
      simp [columnBestValue, hm, metricMax, List.foldl_cons, max_self]
    rw [hval, find?_cons_self_dup, hfind] at h2
    have hw : (scanBest m (x, metricValue x m) (x :: xs)).1 = w :=
      (Option.some.inj h2).symm
    simp only [bestForMetric]
    rw [hw, hval]

/-- Witness for C5 at the spec's worked example: with rows
`A {waiting 10, util 50}` and `B {waiting 5, util 80}`, the best for the
lower-is-better waiting time is `B` and the best for the higher-is-better
utilisation is also `B`. -/
theorem best_per_metric_first_optimum_witness :
    (1 ≤ [rowB].length ∧
      [rowA, rowB].find? (fun a =>
        metricValue a MetricKey.avgWaitingTime =
          columnBestValue MetricKey.avgWaitingTime rowA [rowB]) = some rowB ∧
      bestForMetric rowA [rowB] MetricKey.avgWaitingTime =
        { algorithm := "AlgoB", value := 5 }) ∧
    ([rowA, rowB].find? (fun a =>
        metricValue a MetricKey.cpuUtilization =
          columnBestValue MetricKey.cpuUtilization rowA [rowB]) = some rowB ∧
      bestForMetric rowA [rowB] MetricKey.cpuUtilization =
        { algorithm := "AlgoB", value := 80 }) := by
  refine ⟨⟨by decide, by decide, ?_⟩, by decide, ?_⟩
  · exact (best_per_metric_first_optimum rowA [rowB]
      MetricKey.avgWaitingTime rowB (by decide) (by decide)).trans (by decide)
  · exact (best_per_metric_first_optimum rowA [rowB]
      MetricKey.cpuUtilization rowB (by decide) (by decide)).trans (by decide)

/-- Accumulating a sum over a list with `foldl` equals the initial value
plus the sum of the mapped values. -/
theorem foldl_add_eq (f : MetricKey → Rat) (l : List MetricKey) (s : Rat) :
    l.foldl (fun acc m => acc + f m) s = s + (l.map f).sum := by
  induction l generalizing s with
  | nil => simp
  | cons m l ih => simp [ih, add_assoc]

/-- C6: each run's overall score sums, unweighted over the five metrics, the
min-max-normalised value (inverted for lower-is-better metrics), a metric
with zero range contributing exactly `0`; the weighted scores are sorted
descending, the overall best is the head — of maximal score — and the
displayed percentage is `score / 5 * 100`. -/
theorem overall_score_ranking (x : ChartDataItem) (xs : List ChartDataItem) :
    (∀ (a : ChartDataItem) (m : MetricKey),
      metricMin m x xs = metricMax m x xs → contribution m x xs a = 0) ∧
    (∀ (a : ChartDataItem) (m : MetricKey),
      metricMin m x xs ≠ metricMax m x xs →
        contribution m x xs a =
          if isLowerBetter m then
            1 - (metricValue a m - metricMin m x xs) /
              (metricMax m x xs - metricMin m x xs)
          else
            (metricValue a m - metricMin m x xs) /
              (metricMax m x xs - metricMin m x xs)) ∧
    (∀ a : ChartDataItem, overallScore x xs a =
      (metricKeys.map (fun m => contribution m x xs a)).sum) ∧
    (∀ i, insights (x :: xs) = some i →
      i.weightedScores.Pairwise scoreGE ∧
      i.weightedScores.Perm ((x :: xs).map (toWeightedScore x xs)) ∧
      (∀ b, i.overallBest = some b →
        ∀ a ∈ x :: xs, overallScore x xs a ≤ b.score)) ∧
    (∀ s : Rat, overallScorePercent s = s / 5 * 100) := by
  refine ⟨?_, ?_, ?_, ?_, ?_⟩
  · intro a m h
    simp [contribution, h]
  · intro a m h
    have hr : metricMax m x xs - metricMin m x xs ≠ 0 :=
      sub_ne_zero.2 (Ne.symm h)
    simp only [contribution, if_neg hr]
  · intro a
    simpa using foldl_add_eq (fun m => contribution m x xs a) metricKeys 0
  · intro i hi
    by_cases hlen : (x :: xs).length < 2
    · simp only [insights, if_pos hlen] at hi
      cases hi
    · simp only [insights, if_neg hlen] at hi
      rcases Option.some.inj hi with rfl
      refine ⟨List.sorted_insertionSort scoreGE _,
        List.perm_insertionSort scoreGE _, ?_⟩
      intro b hb a ha
      have hsorted :
          List.Sorted scoreGE
            (sortDesc ((x :: xs).map (toWeightedScore x xs))) :=
        List.sorted_insertionSort scoreGE _
      have hperm :
          (sortDesc ((x :: xs).map (toWeightedScore x xs))).Perm
            ((x :: xs).map (toWeightedScore x xs)) :=
        List.perm_insertionSort scoreGE _
      have hmem : toWeightedScore x xs a ∈
          sortDesc ((x :: xs).map (toWeightedScore x xs)) :=
        hperm.mem_iff.2 (List.mem_map_of_mem _ ha)
      have hb' : (sortDesc ((x :: xs).map (toWeightedScore x xs))).head? =
          some b := hb
      rcases hhead : sortDesc ((x :: xs).map (toWeightedScore x xs)) with
        _ | ⟨b0, t⟩
      · rw [hhead] at hmem
        cases hmem
      · rw [hhead] at hmem hsorted hb'
        have hb0 : b0 = b := by simpa using hb'
        rcases List.mem_cons.1 hmem with h | h
        · rw [← hb0]
          exact le_of_eq (congrArg WeightedScore.score h)
        · rw [← hb0]
          exact (List.sorted_cons.1 hsorted).1 _ h
  · intro s
    norm_num [overallScorePercent, metricKeys]

/-- Witness for C6 at the two-row example: the degenerate turnaround metric
(both rows `0`) contributes `0` to both rows, the non-degenerate utilisation
metric follows the min-max formula, the score is the unweighted metric sum,
and the displayed percentage formula holds. -/
theorem overall_score_ranking_witness :
    contribution MetricKey.avgTurnaroundTime rowA [rowB] rowA = 0 ∧
    contribution MetricKey.avgTurnaroundTime rowA [rowB] rowB = 0 ∧
    contribution MetricKey.cpuUtilization rowA [rowB] rowB =
      (metricValue rowB MetricKey.cpuUtilization -
          metricMin MetricKey.cpuUtilization rowA [rowB]) /
        (metricMax MetricKey.cpuUtilization rowA [rowB] -
          metricMin MetricKey.cpuUtilization rowA [rowB]) ∧
    overallScore rowA [rowB] rowB =
      (metricKeys.map (fun m => contribution m rowA [rowB] rowB)).sum ∧
    overallScorePercent 2 = 2 / 5 * 100 := by
  have h := overall_score_ranking rowA [rowB]
  refine ⟨h.1 rowA MetricKey.avgTurnaroundTime (by decide),
    h.1 rowB MetricKey.avgTurnaroundTime (by decide), ?_,
    h.2.2.1 rowB, h.2.2.2.2 2⟩
  have h2 := h.2.1 rowB MetricKey.cpuUtilization (by decide)
  rw [if_neg (by decide)] at h2
  exact h2
